import Mathlib

/-!
Shallow embedding of the profitability-dashboard pipeline
(`costing.py`, `linnworks_client.py`, `metrics.py`, and the like-for-like
window arithmetic of `app.py`).

Modelling conventions, applied uniformly:
* Python floats (Shopify decimal strings parsed with `float`) are modelled
  as exact rationals `ℚ`; the arithmetic identities below are statements of
  the exact arithmetic the code writes down.
* Python `datetime` values are modelled as `Int` timestamps (`DT`): the code
  only compares them, takes minima, and stores them.  `parse_datetime` /
  `parse_linnworks_date` (dateutil) are abstracted away by storing fields
  already parsed: an `Option DT` field is `none` when the raw string is
  absent, empty, or unparseable.
* A Python `dict` is an association list where inserting prepends a binding
  and lookup takes the first match, i.e. the newest binding wins, exactly
  the dict overwrite semantics the code relies on.
* Optional Shopify fields that the code guards with truthiness (`or`
  chains) are `Option` fields where `none` models an absent/`None`/empty
  value; nonempty decimal strings such as `"0.00"` are truthy in Python and
  are modelled as `some 0`.
-/

/-- Timestamps (the code only orders them and takes minima). -/
abbrev DT := Int

/-- Python dict lookup: first (most recently inserted) binding wins. -/
def dget {κ β : Type} [DecidableEq κ] (d : List (κ × β)) (k : κ) : Option β :=
  (d.find? (fun p => decide (p.1 = k))).map Prod.snd

/-- Python dict insertion `d[k] = v`: prepend, shadowing older bindings. -/
def dinsert {κ β : Type} (d : List (κ × β)) (k : κ) (v : β) : List (κ × β) :=
  (k, v) :: d

theorem dget_cons {κ β : Type} [DecidableEq κ] (d : List (κ × β)) (k k1 : κ) (v : β) :
    dget ((k1, v) :: d) k = if k = k1 then some v else dget d k := by
  by_cases h : k = k1 <;> simp [dget, List.find?, h, eq_comm]

/-- Python `str.strip()` on a character list: drop leading and trailing
whitespace (the references at hand only ever carry ASCII whitespace). -/
def stripChars (cs : List Char) : List Char :=
  (((cs.dropWhile Char.isWhitespace).reverse).dropWhile Char.isWhitespace).reverse

/-- Numeric value of a list of decimal digit characters. -/
def digitsVal (cs : List Char) : Nat :=
  cs.foldl (fun a c => a * 10 + (c.toNat - 48)) 0

/-- Python `int(s)` on a string: optional surrounding whitespace, optional
sign, then at least one decimal digit; `none` models the `ValueError`
branch.  (Python additionally allows underscore digit separators, which the
numeric Shopify/Linnworks references never contain.) -/
def pyIntOfString (s : String) : Option Int :=
  let cs := stripChars s.toList
  match cs with
  | [] => none
  | c :: rest =>
    if c = '-' then
      if rest.length != 0 && rest.all Char.isDigit then some (-(digitsVal rest : Int)) else none
    else if c = '+' then
      if rest.length != 0 && rest.all Char.isDigit then some ((digitsVal rest : Int)) else none
    else if cs.all Char.isDigit then some ((digitsVal cs : Int)) else none

/-- Python `str(x)` for an optional integer (`str(None) = "None"`). -/
def pyStrOptInt : Option Int → String
  | none => "None"
  | some n => toString n

/-! ## `costing.py` -/

/-- `CostLookupResult` dataclass. -/
structure CostLookupResult where
  cost : Option ℚ
  found : Bool
  sku : Option String := none
  variant_id : Option Int := none
deriving DecidableEq

/-- State of `CostingService` together with its environment: `api` is the
pure response of `_fetch_variant_cost` (the Shopify variant-cost endpoint),
`cache`/`missing_costs` mirror `CostCache` (the session-state dict and set),
and `fetches` counts the calls made to `_fetch_variant_cost`. -/
structure CostState where
  api : Int → Option ℚ
  cache : List (Int × Option ℚ)
  missing_costs : List Int
  fetches : Nat

/-- `CostingService.get_variant_cost`.  A falsy `variant_id` (Python `None`
or `0`) short-circuits; otherwise the in-memory cache is consulted and a
miss fetches from the API and stores the result (caching `None` as well,
recording the variant in `missing_costs`). -/
def get_variant_cost (vid : Option Int) (s : CostState) : CostLookupResult × CostState :=
  match vid with
  | none => ({ cost := none, found := false, variant_id := none }, s)
  | some v =>
    if v = 0 then ({ cost := none, found := false, variant_id := some v }, s)
    else
      match dget s.cache v with
      | some c => ({ cost := c, found := c.isSome, variant_id := some v }, s)
      | none =>
        let cost := s.api v
        ({ cost := cost, found := cost.isSome, variant_id := some v },
         { s with cache := dinsert s.cache v cost,
                  missing_costs := if cost = none then v :: s.missing_costs else s.missing_costs,
                  fetches := s.fetches + 1 })

/-- A Shopify order line item (the fields `metrics.py`/`costing.py` read).
`price` is `float(item.get("price", 0))`, `discount_allocations` the list of
`float(a.get("amount", 0))` values. -/
structure LineItem where
  sku : Option String
  variant_id : Option Int
  title : String
  price : ℚ
  quantity : Int
  discount_allocations : List ℚ
deriving DecidableEq

/-- `CostingService.get_line_item_cost`. -/
def get_line_item_cost (it : LineItem) (s : CostState) : CostLookupResult × CostState :=
  let r := get_variant_cost it.variant_id s
  ({ r.1 with sku := it.sku, variant_id := it.variant_id }, r.2)

/-- `CostingService.calculate_line_cogs`: `(line_cogs, has_cost, unit_cost)`
plus the updated cache state. -/
def calculate_line_cogs (it : LineItem) (s : CostState) : (ℚ × Bool × Option ℚ) × CostState :=
  let r := get_line_item_cost it s
  match r.1.found, r.1.cost with
  | true, some c => ((c * (it.quantity : ℚ), true, some c), r.2)
  | _, _ => ((0, false, none), r.2)

/-- `PACKAGING_COSTS` constant (component name, cost) per box type. -/
def PACKAGING_COSTS (bt : String) : List (String × ℚ) :=
  if bt = "small" then
    [("Box", 1.11), ("Wool", 1.00), ("Coolant", 0.60), ("Shipping", 6.45), ("Pick & Pack", 3.50)]
  else if bt = "large" then
    [("Box", 1.36), ("Wool", 1.50), ("Coolant", 1.00), ("Shipping", 6.45), ("Pick & Pack", 3.50)]
  else []

/-- `determine_box_type`: box type and multiplier from total item count. -/
def determine_box_type (item_count : Int) : String × Int :=
  if item_count ≤ 10 then ("small", 1)
  else if item_count ≤ 16 then ("large", 1)
  else ("large", 2)

/-- `calculate_packaging_cost`: `(total, box_type, multiplier, breakdown)`. -/
def calculate_packaging_cost (item_count : Int) : ℚ × String × Int × List (String × ℚ) :=
  let bt := determine_box_type item_count
  let breakdown := (PACKAGING_COSTS bt.1).map (fun p => (p.1, p.2 * (bt.2 : ℚ)))
  ((breakdown.map Prod.snd).sum, bt.1, bt.2, breakdown)

/-! ## `linnworks_client.py` -/

/-- Keys of the dispatch-info dict: Linnworks/Shopify reference strings and
(for numeric references) their integer values. -/
abbrev Key := Int ⊕ String

/-- A Linnworks processed order (the fields `get_dispatch_info` reads).
`ReferenceNum` is `order.get('ReferenceNum', '')` (`""` models a missing or
empty reference, which Python treats as falsy); `dProcessedOn` is the
already-parsed `parse_linnworks_date` result. -/
structure LWOrder where
  ReferenceNum : String
  dProcessedOn : Option DT
  PostalServiceName : String
  cFullName : String
  fTotalCharge : ℚ
  nItems : Int
deriving DecidableEq

/-- The per-order info dict built by `get_dispatch_info`. -/
structure LWInfo where
  processed_date : Option DT
  shipping_method : String
  customer_name : String
  total_charge : ℚ
  num_items : Int
deriving DecidableEq

/-- The info dict `get_dispatch_info` builds for one Linnworks order. -/
def lwInfoOf (o : LWOrder) : LWInfo :=
  { processed_date := o.dProcessedOn, shipping_method := o.PostalServiceName,
    customer_name := o.cFullName, total_charge := o.fTotalCharge, num_items := o.nItems }

/-- `ref_num.replace('#', '').strip()`: every `'#'` removed, then
surrounding whitespace stripped. -/
def cleanRef (s : String) : String :=
  String.mk (stripChars (s.toList.filter (fun c => c != '#')))

/-- The dict keys one Linnworks order is stored under: raw reference,
cleaned reference, and (when the cleaned reference is numeric) its integer
value.  Derived bookkeeping for the theorems below. -/
def lwKeys (o : LWOrder) : List Key :=
  [Sum.inr o.ReferenceNum, Sum.inr (cleanRef o.ReferenceNum)] ++
    (match pyIntOfString (cleanRef o.ReferenceNum) with
     | some n => [Sum.inl n]
     | none => [])

/-- One iteration of the `get_dispatch_info` loop. -/
def lwStep (d : List (Key × LWInfo)) (o : LWOrder) : List (Key × LWInfo) :=
  if o.ReferenceNum = "" then d
  else
    let info := lwInfoOf o
    let d1 := dinsert d (Sum.inr o.ReferenceNum) info
    let d2 := dinsert d1 (Sum.inr (cleanRef o.ReferenceNum)) info
    match pyIntOfString (cleanRef o.ReferenceNum) with
    | some n => dinsert d2 (Sum.inl n) info
    | none => d2

/-- `get_dispatch_info`. -/
def get_dispatch_info (orders : List LWOrder) : List (Key × LWInfo) :=
  orders.foldl lwStep []

/-! ## `metrics.py` -/

/-- A Shopify fulfillment; `created_at` is the already-parsed
`parse_datetime` result (`none` = absent or unparseable). -/
structure Fulfillment where
  created_at : Option DT
deriving DecidableEq

/-- A Shopify order (the fields the metrics pipeline reads).  The monetary
fields are the already-`float`ed decimal strings; `none` models an
absent/`None`/empty value (nonempty `"0.00"` is `some 0`).
`shipping_amount` collapses `total_shipping_price_set.shop_money.amount`.
Presentation-only fields (customer name fallbacks, weekday/ISO-week
strings, first-order flag) are not modelled: no claim mentions them. -/
structure Order where
  id : Option Int
  name : String
  created_at : Option DT
  processed_at : Option DT
  currency : String
  current_total_discounts : Option ℚ
  total_discounts : Option ℚ
  current_subtotal_price : Option ℚ
  subtotal_price : Option ℚ
  shipping_amount : Option ℚ
  line_items : List LineItem
  fulfillments : List Fulfillment
deriving DecidableEq

/-- `is_order_fulfilled`: `len(order.get("fulfillments", [])) > 0`. -/
def is_order_fulfilled (o : Order) : Bool :=
  decide (0 < o.fulfillments.length)

/-- `get_sent_out_at`: earliest parseable fulfillment `created_at`. -/
def get_sent_out_at (o : Order) : Option DT :=
  if o.fulfillments = [] then none
  else (o.fulfillments.filterMap Fulfillment.created_at).min?

/-- Identifier used by `count_distinct_skus` for one line item:
`"sku:{sku}"` for a truthy sku, else `"vid:{variant_id}"` for a truthy
variant id, else nothing. -/
def skuIdent (it : LineItem) : Option String :=
  match it.sku with
  | some s =>
    if s = "" then
      match it.variant_id with
      | some v => if v = 0 then none else some ("vid:" ++ toString v)
      | none => none
    else some ("sku:" ++ s)
  | none =>
    match it.variant_id with
    | some v => if v = 0 then none else some ("vid:" ++ toString v)
    | none => none

/-- `count_distinct_skus`. -/
def count_distinct_skus (items : List LineItem) : Nat :=
  ((items.filterMap skuIdent).dedup).length

/-- Gross value of a line item: `float(price) * int(quantity)`. -/
def lineGross (it : LineItem) : ℚ := it.price * (it.quantity : ℚ)

/-- `float(order.get("current_total_discounts") or order.get("total_discounts") or 0)`. -/
def orderLevelDiscount (o : Order) : ℚ :=
  match o.current_total_discounts with
  | some q => q
  | none =>
    match o.total_discounts with
    | some q => q
    | none => 0

/-- `calculate_line_item_discounts`, returned as a list aligned with the
line items (the Python dict maps every index `0..len-1` in all branches). -/
def calculate_line_item_discounts (o : Order) (items : List LineItem) : List ℚ :=
  let total_gross := (items.map lineGross).sum
  if items.any (fun it => !it.discount_allocations.isEmpty) then
    items.map (fun it => it.discount_allocations.sum)
  else
    let total_discount := orderLevelDiscount o
    if 0 < total_gross ∧ 0 < total_discount then
      items.map (fun it => total_discount * (lineGross it / total_gross))
    else
      items.map (fun _ => 0)

/-- `calculate_order_revenue`: `(gross_item_value, total_discounts, net_revenue)`. -/
def calculate_order_revenue (o : Order) : ℚ × ℚ × ℚ :=
  let gross := (o.line_items.map lineGross).sum
  let td := orderLevelDiscount o
  match o.current_subtotal_price with
  | some cs =>
    (gross, if 0 < gross - cs then gross - cs else td, cs)
  | none =>
    let subtotal := match o.subtotal_price with | some q => q | none => gross
    let net := subtotal - td
    if |net - subtotal| < 1 / 100 ∧ 0 < td then
      if |gross - subtotal - td| < 1 / 100 then (gross, td, subtotal)
      else (gross, td, net)
    else (gross, td, net)

/-- `LineItemMetrics` dataclass. -/
structure LineItemMetrics where
  sku : Option String
  variant_id : Option Int
  title : String
  quantity : Int
  unit_price : ℚ
  gross_value : ℚ
  line_discount : ℚ
  net_revenue : ℚ
  unit_cost : Option ℚ
  line_cogs : ℚ
  has_cost : Bool
deriving DecidableEq

/-- The name appended to `missing_cost_skus` for a line without cost data:
`sku or f"variant:{variant_id}" or "unknown"` (a falsy sku is `None` or
`""`; the f-string is never empty, so `"unknown"` is unreachable). -/
def missingName (sku : Option String) (vid : Option Int) : String :=
  match sku with
  | some s => if s = "" then "variant:" ++ pyStrOptInt vid else s
  | none => "variant:" ++ pyStrOptInt vid

/-- Accumulator of the line-item loop in `process_order`. -/
structure LinesAcc where
  items : List LineItemMetrics
  total_cogs : ℚ
  missing_count : Nat
  missing_skus : List String
  state : CostState

/-- The line-item loop of `process_order`: builds `LineItemMetrics`, sums
COGS, counts and names lines without cost data, threading the cost cache.
`ds` is the discount list from `calculate_line_item_discounts` (the Python
`line_discount_map.get(idx, 0.0)` is position-aligned; `headD 0` is the
`.get` default). -/
def processLines : CostState → List LineItem → List ℚ → LinesAcc
  | s, [], _ => ⟨[], 0, 0, [], s⟩
  | s, it :: rest, ds =>
    let d := ds.headD 0
    let c := calculate_line_cogs it s
    let t := processLines c.2 rest ds.tail
    { items :=
        { sku := it.sku, variant_id := it.variant_id, title := it.title,
          quantity := it.quantity, unit_price := it.price,
          gross_value := it.price * (it.quantity : ℚ),
          line_discount := d,
          net_revenue := it.price * (it.quantity : ℚ) - d,
          unit_cost := c.1.2.2, line_cogs := c.1.1, has_cost := c.1.2.1 } :: t.items,
      total_cogs := c.1.1 + t.total_cogs,
      missing_count := (if c.1.2.1 then 0 else 1) + t.missing_count,
      missing_skus :=
        (if c.1.2.1 then t.missing_skus else missingName it.sku it.variant_id :: t.missing_skus),
      state := t.state }

/-- `OrderMetrics` dataclass (presentation-only fields omitted, see
`Order`). -/
structure OrderMetrics where
  order_id : Option Int
  order_name : String
  created_at : Option DT
  processed_at : Option DT
  sent_out_at : DT
  currency : String
  gross_item_value : ℚ
  total_discounts : ℚ
  net_revenue : ℚ
  shipping_paid : ℚ
  cogs : ℚ
  packaging_total : ℚ
  box_type : String
  box_multiplier : Int
  packaging_breakdown : List (String × ℚ)
  gross_profit : ℚ
  contribution : ℚ
  gross_margin_pct : ℚ
  contribution_margin_pct : ℚ
  sku_count : Nat
  total_units : Int
  line_items : List LineItemMetrics
  missing_cost_count : Nat
  missing_cost_skus : List String
deriving DecidableEq, Inhabited

/-- The Linnworks lookup chain of `process_order` (lines 276-290): guarded
by the truthiness of `dispatch_info` (`none` or the empty dict skip it),
then first hit among the keys `order_id`, `str(order_id)`,
`order_name.replace('#','').strip()`, `order_name`.  An info dict built by
`get_dispatch_info` is never empty, so its truthiness is `isSome`. -/
def lwLookup (o : Order) (dm : Option (List (Key × LWInfo))) : Option LWInfo :=
  match dm with
  | none => none
  | some d =>
    if d = [] then none
    else
      match o.id.bind (fun n => dget d (Sum.inl n)) with
      | some i => some i
      | none =>
        match dget d (Sum.inr (pyStrOptInt o.id)) with
        | some i => some i
        | none =>
          match dget d (Sum.inr (cleanRef o.name)) with
          | some i => some i
          | none => dget d (Sum.inr o.name)

/-- Dispatch-date resolution of `process_order` (lines 272-299): the
Linnworks `processed_date` of the first lookup hit when truthy, else the
Shopify fulfillment fallback, else `None`. -/
def resolveSentOut (o : Order) (dm : Option (List (Key × LWInfo))) : Option DT :=
  match (lwLookup o dm).bind LWInfo.processed_date with
  | some t => some t
  | none => if is_order_fulfilled o then get_sent_out_at o else none

/-- `process_order`: `None` when no dispatch date resolves, otherwise the
full `OrderMetrics`; also returns the cost-cache state (the Python code
mutates `costing_service` in place). -/
def process_order (o : Order) (s : CostState) (dm : Option (List (Key × LWInfo))) :
    Option OrderMetrics × CostState :=
  match resolveSentOut o dm with
  | none => (none, s)
  | some t =>
    let shipping_paid := o.shipping_amount.getD 0
    let sku_count := count_distinct_skus o.line_items
    let total_units := (o.line_items.map LineItem.quantity).sum
    let rev := calculate_order_revenue o
    let ds := calculate_line_item_discounts o o.line_items
    let acc := processLines s o.line_items ds
    let pack := calculate_packaging_cost total_units
    let gross_profit := rev.2.2 - acc.total_cogs
    let contribution := rev.2.2 - acc.total_cogs - pack.1
    (some
      { order_id := o.id, order_name := o.name, created_at := o.created_at,
        processed_at := o.processed_at, sent_out_at := t, currency := o.currency,
        gross_item_value := rev.1, total_discounts := rev.2.1, net_revenue := rev.2.2,
        shipping_paid := shipping_paid,
        cogs := acc.total_cogs, packaging_total := pack.1,
        box_type := pack.2.1, box_multiplier := pack.2.2.1,
        packaging_breakdown := pack.2.2.2,
        gross_profit := gross_profit, contribution := contribution,
        gross_margin_pct := if 0 < rev.2.2 then gross_profit / rev.2.2 * 100 else 0,
        contribution_margin_pct := if 0 < rev.2.2 then contribution / rev.2.2 * 100 else 0,
        sku_count := sku_count, total_units := total_units,
        line_items := acc.items, missing_cost_count := acc.missing_count,
        missing_cost_skus := acc.missing_skus },
     acc.state)

/-! ## `app.py`: like-for-like window (lines 540-557) -/

/-- A calendar date (`datetime` at date granularity; every retail row
carries a `'%Y-%m-%d'` date, i.e. midnight, so the pandas comparisons in
`render_retail_dashboard` act on dates). -/
structure PyDate where
  year : Int
  month : Int
  day : Int
deriving DecidableEq

/-- Gregorian leap year. -/
def isLeapYear (y : Int) : Bool :=
  y % 4 == 0 && (y % 100 != 0 || y % 400 == 0)

/-- Days in a month. -/
def daysInMonth (y m : Int) : Int :=
  if m = 2 then (if isLeapYear y then 29 else 28)
  else if m = 4 ∨ m = 6 ∨ m = 9 ∨ m = 11 then 30
  else 31

/-- Validity of a `datetime.replace` target: `replace` raises `ValueError`
exactly when the resulting (year, month, day) is not a calendar date. -/
def isValidDate (y m d : Int) : Prop :=
  1 ≤ m ∧ m ≤ 12 ∧ 1 ≤ d ∧ d ≤ daysInMonth y m

instance (y m d : Int) : Decidable (isValidDate y m d) := by
  unfold isValidDate; infer_instance

/-- Date order (lexicographic year, month, day). -/
def dateLE (a b : PyDate) : Prop :=
  a.year < b.year ∨
    (a.year = b.year ∧ (a.month < b.month ∨ (a.month = b.month ∧ a.day ≤ b.day)))

instance (a b : PyDate) : Decidable (dateLE a b) := by
  unfold dateLE; infer_instance

/-- The LFL window of `render_retail_dashboard`:
`last_year_month_start = today.replace(year=today.year-1, month=today.month, day=1)`
and `last_year_same_day = today.replace(year=today.year-1)`, with the
`ValueError` fallback `today.replace(year=today.year-1, day=28)`. -/
def lflWindow (today : PyDate) : PyDate × PyDate :=
  (⟨today.year - 1, today.month, 1⟩,
   if isValidDate (today.year - 1) today.month today.day then
     ⟨today.year - 1, today.month, today.day⟩
   else ⟨today.year - 1, today.month, 28⟩)

/-- The row selection
`df_all[(df_all['Date'] >= last_year_month_start) & (df_all['Date'] <= last_year_same_day)]`. -/
def selectLFL (today : PyDate) (rows : List PyDate) : List PyDate :=
  rows.filter (fun d =>
    decide (dateLE (lflWindow today).1 d) && decide (dateLE d (lflWindow today).2))

/-! ## Helper lemmas -/

theorem sum_map_scaled (D G : ℚ) : ∀ (l : List LineItem),
    (l.map (fun it => D * (lineGross it / G))).sum = D * ((l.map lineGross).sum / G)
  | [] => by simp
  | it :: l => by
    simp only [List.map_cons, List.sum_cons, sum_map_scaled D G l]
    ring

theorem packaging_small_eval : PACKAGING_COSTS "small" =
    [("Box", 1.11), ("Wool", 1.00), ("Coolant", 0.60), ("Shipping", 6.45), ("Pick & Pack", 3.50)] :=
  rfl

theorem packaging_large_eval : PACKAGING_COSTS "large" =
    [("Box", 1.36), ("Wool", 1.50), ("Coolant", 1.00), ("Shipping", 6.45), ("Pick & Pack", 3.50)] := by
  unfold PACKAGING_COSTS
  rw [if_neg (by decide), if_pos rfl]

/-! ## C4 -/

/-- C4: the packaging tier is a function of the total unit count: at most 10
units is one small box, 11-16 one large box, 17 or more two large boxes; the
total is the multiplier times the box type's component sum (12.66 small,
13.81 large) and the breakdown scales each component by the multiplier. -/
theorem spec_c4_packaging_tiers (n : Int) :
    (n ≤ 10 → calculate_packaging_cost n =
      (12.66, "small", 1,
        [("Box", 1.11), ("Wool", 1.00), ("Coolant", 0.60), ("Shipping", 6.45), ("Pick & Pack", 3.50)]))
  ∧ (11 ≤ n → n ≤ 16 → calculate_packaging_cost n =
      (13.81, "large", 1,
        [("Box", 1.36), ("Wool", 1.50), ("Coolant", 1.00), ("Shipping", 6.45), ("Pick & Pack", 3.50)]))
  ∧ (17 ≤ n → calculate_packaging_cost n =
      (27.62, "large", 2,
        [("Box", 2.72), ("Wool", 3.00), ("Coolant", 2.00), ("Shipping", 12.90), ("Pick & Pack", 7.00)]))
  ∧ (calculate_packaging_cost n).1 =
      ((calculate_packaging_cost n).2.2.1 : ℚ) *
        ((PACKAGING_COSTS (calculate_packaging_cost n).2.1).map Prod.snd).sum := by
  refine ⟨fun h => ?_, fun h1 h2 => ?_, fun h => ?_, ?_⟩
  · norm_num [calculate_packaging_cost, determine_box_type, packaging_small_eval, h]
  · have h0 : ¬ n ≤ 10 := by omega
    norm_num [calculate_packaging_cost, determine_box_type, packaging_large_eval, h0, h2]
  · have h0 : ¬ n ≤ 10 := by omega
    have h16 : ¬ n ≤ 16 := by omega
    norm_num [calculate_packaging_cost, determine_box_type, packaging_large_eval, h0, h16]
  · by_cases h0 : n ≤ 10
    · norm_num [calculate_packaging_cost, determine_box_type, packaging_small_eval, h0]
    · by_cases h16 : n ≤ 16 <;>
        norm_num [calculate_packaging_cost, determine_box_type, packaging_large_eval, h0, h16]

/-- Witness for C4 at unit counts 5, 12 and 20. -/
theorem spec_c4_witness :
    calculate_packaging_cost 5 =
      (12.66, "small", 1,
        [("Box", 1.11), ("Wool", 1.00), ("Coolant", 0.60), ("Shipping", 6.45), ("Pick & Pack", 3.50)])
  ∧ calculate_packaging_cost 12 =
      (13.81, "large", 1,
        [("Box", 1.36), ("Wool", 1.50), ("Coolant", 1.00), ("Shipping", 6.45), ("Pick & Pack", 3.50)])
  ∧ calculate_packaging_cost 20 =
      (27.62, "large", 2,
        [("Box", 2.72), ("Wool", 3.00), ("Coolant", 2.00), ("Shipping", 12.90), ("Pick & Pack", 7.00)]) :=
  ⟨(spec_c4_packaging_tiers 5).1 (by norm_num),
   (spec_c4_packaging_tiers 12).2.1 (by norm_num) (by norm_num),
   (spec_c4_packaging_tiers 20).2.2.1 (by norm_num)⟩

/-! ## C8 -/

/-- C8: `determine_box_type` only ever returns multiplier 1 or 2; any count
above 16 (for example 100) yields two large boxes, and a count of zero or
negative falls into the small-box tier with multiplier 1. -/
theorem spec_c8_box_multiplier (n : Int) :
    ((determine_box_type n).2 = 1 ∨ (determine_box_type n).2 = 2)
  ∧ (16 < n → determine_box_type n = ("large", 2))
  ∧ determine_box_type 100 = ("large", 2)
  ∧ (n ≤ 0 → determine_box_type n = ("small", 1)) := by
  refine ⟨?_, fun h => ?_, by norm_num [determine_box_type], fun h => ?_⟩
  · unfold determine_box_type
    split_ifs <;> simp
  · have h0 : ¬ n ≤ 10 := by omega
    have h16 : ¬ n ≤ 16 := by omega
    simp [determine_box_type, h0, h16]
  · have h0 : n ≤ 10 := by omega
    simp [determine_box_type, h0]

/-- Witness for C8 at counts 100 and -5. -/
theorem spec_c8_witness :
    ((16 : Int) < 100 ∧ determine_box_type 100 = ("large", 2))
  ∧ ((-5 : Int) ≤ 0 ∧ determine_box_type (-5) = ("small", 1)) :=
  ⟨⟨by norm_num, (spec_c8_box_multiplier 100).2.1 (by norm_num)⟩,
   ⟨by norm_num, (spec_c8_box_multiplier (-5)).2.2.2 (by norm_num)⟩⟩

/-! ## C10 -/

/-- C10: when `current_subtotal_price` is present, `calculate_order_revenue`
returns it as the net revenue, and whenever the gross item value exceeds it,
the returned `total_discounts` is exactly that difference, overriding the
order's discount fields. -/
theorem spec_c10_subtotal_override (o : Order) (c : ℚ)
    (h : o.current_subtotal_price = some c) :
    (calculate_order_revenue o).2.2 = c
  ∧ (calculate_order_revenue o).1 = (o.line_items.map lineGross).sum
  ∧ (0 < (o.line_items.map lineGross).sum - c →
      (calculate_order_revenue o).2.1 = (o.line_items.map lineGross).sum - c) := by
  unfold calculate_order_revenue
  rw [h]
  exact ⟨rfl, rfl, fun hp => by simp only [if_pos hp]⟩

/-- C10 fixture: gross item value 5, `current_subtotal_price` 4, and a
contradicting `current_total_discounts` of 99. -/
def orderC10 : Order :=
  { id := some 1, name := "#1", created_at := none, processed_at := none,
    currency := "GBP", current_total_discounts := some 99, total_discounts := none,
    current_subtotal_price := some 4, subtotal_price := none, shipping_amount := none,
    line_items := [{ sku := some "A", variant_id := some 1, title := "a",
                     price := 5, quantity := 1, discount_allocations := [] }],
    fulfillments := [] }

/-- Witness for C10: net revenue 4 and recomputed discount 1 on
`orderC10`, whatever `current_total_discounts` says. -/
theorem spec_c10_witness :
    (calculate_order_revenue orderC10).2.2 = 4
  ∧ (calculate_order_revenue orderC10).2.1 = 1 := by
  refine ⟨(spec_c10_subtotal_override orderC10 4 rfl).1, ?_⟩
  have h := (spec_c10_subtotal_override orderC10 4 rfl).2.2
    (by norm_num [orderC10, lineGross])
  rw [h]
  norm_num [orderC10, lineGross]

/-! ## C1 -/

/-- C1: with no line-item discount allocations, positive total gross value
and a positive order-level discount, discounts are allocated proportionally
to line gross value and sum exactly to the order-level discount; when some
line carries allocations, each line receives the sum of its own allocation
amounts (0 for lines without any). -/
theorem spec_c1_discount_allocation (o : Order) (items : List LineItem) :
    ((∀ it ∈ items, it.discount_allocations = []) →
      0 < (items.map lineGross).sum →
      0 < orderLevelDiscount o →
      calculate_line_item_discounts o items =
        items.map (fun it => orderLevelDiscount o * (lineGross it / (items.map lineGross).sum))
      ∧ (calculate_line_item_discounts o items).sum = orderLevelDiscount o)
  ∧ ((∃ it ∈ items, it.discount_allocations ≠ []) →
      calculate_line_item_discounts o items =
        items.map (fun it => it.discount_allocations.sum)) := by
  constructor
  · intro hall hg hd
    have hany : items.any (fun it => !it.discount_allocations.isEmpty) = false := by
      simp only [List.any_eq_false, Bool.not_eq_true, Bool.not_eq_true']
      intro it hit
      simp [List.isEmpty_iff, hall it hit]
    have heq : calculate_line_item_discounts o items =
        items.map (fun it => orderLevelDiscount o * (lineGross it / (items.map lineGross).sum)) := by
      unfold calculate_line_item_discounts
      rw [hany]
      simp only [Bool.false_eq_true, if_false, if_pos (And.intro hg hd)]
    refine ⟨heq, ?_⟩
    rw [heq, sum_map_scaled, div_self (ne_of_gt hg), mul_one]
  · rintro ⟨it, hit, hne⟩
    have hany : items.any (fun it => !it.discount_allocations.isEmpty) = true :=
      List.any_eq_true.mpr ⟨it, hit, by simp [List.isEmpty_iff, hne]⟩
    unfold calculate_line_item_discounts
    rw [hany]
    simp

/-- C1 fixture: an order carrying only an order-level discount of 10. -/
def orderC1 : Order :=
  { id := some 9, name := "#9", created_at := none, processed_at := none,
    currency := "GBP", current_total_discounts := some 10, total_discounts := none,
    current_subtotal_price := none, subtotal_price := none, shipping_amount := none,
    line_items := [], fulfillments := [] }

/-- C1 fixture: two lines of gross value 2 and 3 without allocations. -/
def itemsNoAlloc : List LineItem :=
  [{ sku := some "A", variant_id := some 1, title := "a", price := 2, quantity := 1,
     discount_allocations := [] },
   { sku := none, variant_id := some 2, title := "b", price := 3, quantity := 1,
     discount_allocations := [] }]

/-- C1 fixture: the first line carries allocations `[1, 1/2]`. -/
def itemsWithAlloc : List LineItem :=
  [{ sku := some "A", variant_id := some 1, title := "a", price := 2, quantity := 1,
     discount_allocations := [1, 1/2] },
   { sku := none, variant_id := some 2, title := "b", price := 3, quantity := 1,
     discount_allocations := [] }]

/-- Witness for C1: proportional branch on gross values 2 and 3 with
order-level discount 10 (allocations 4 and 6, summing to 10), and the
allocation branch on amounts `[1, 1/2]` (line totals 3/2 and 0). -/
theorem spec_c1_witness :
    calculate_line_item_discounts orderC1 itemsNoAlloc = [4, 6]
  ∧ (calculate_line_item_discounts orderC1 itemsNoAlloc).sum = 10
  ∧ calculate_line_item_discounts orderC1 itemsWithAlloc = [3/2, 0] := by
  have h1 := (spec_c1_discount_allocation orderC1 itemsNoAlloc).1
    (by intro it hit; fin_cases hit <;> rfl)
    (by norm_num [itemsNoAlloc, lineGross])
    (by norm_num [orderC1, orderLevelDiscount])
  have h2 := (spec_c1_discount_allocation orderC1 itemsWithAlloc).2
    ⟨_, List.mem_cons_self _ _, by simp [itemsWithAlloc]⟩
  refine ⟨?_, ?_, ?_⟩
  · rw [h1.1]
    norm_num [itemsNoAlloc, lineGross, orderC1, orderLevelDiscount]
  · rw [h1.2]
    norm_num [orderC1, orderLevelDiscount]
  · rw [h2]
    norm_num [itemsWithAlloc]

/-- Evaluation of `get_variant_cost` on a missing variant id. -/
theorem gvc_eval_nil (s : CostState) :
    get_variant_cost none s = ({ cost := none, found := false, variant_id := none }, s) :=
  rfl

/-- Evaluation of `get_variant_cost` on the falsy variant id 0. -/
theorem gvc_eval_zero (s : CostState) :
    get_variant_cost (some 0) s = ({ cost := none, found := false, variant_id := some 0 }, s) := by
  simp [get_variant_cost]

/-- Evaluation of `get_variant_cost` on a cache hit. -/
theorem gvc_eval_hit (s : CostState) (v : Int) (c : Option ℚ)
    (hv : v ≠ 0) (hc : dget s.cache v = some c) :
    get_variant_cost (some v) s = ({ cost := c, found := c.isSome, variant_id := some v }, s) := by
  simp only [get_variant_cost]
  rw [if_neg hv, hc]

/-- Evaluation of `get_variant_cost` on a cache miss. -/
theorem gvc_eval_miss (s : CostState) (v : Int)
    (hv : v ≠ 0) (hc : dget s.cache v = none) :
    get_variant_cost (some v) s =
      ({ cost := s.api v, found := (s.api v).isSome, variant_id := some v },
       { s with cache := (v, s.api v) :: s.cache,
                missing_costs := if s.api v = none then v :: s.missing_costs else s.missing_costs,
                fetches := s.fetches + 1 }) := by
  simp only [get_variant_cost]
  rw [if_neg hv, hc]
  rfl

/-! ## C7 -/

/-- C7: two successive `get_variant_cost` calls for the same variant return
equal results and the second leaves the state (hence the fetch count)
untouched; after the first call the cache binds the variant to the returned
cost and `found` is `cost is not None` (on a fresh fetch the cost is the
API's answer, `None` also being cached with the variant recorded in
`missing_costs`); a cache hit returns the cached cost directly with the
state untouched, and a falsy variant id short-circuits without touching
cache or API. -/
theorem spec_c7_cost_cache (s : CostState) (vid : Option Int) :
    ((get_variant_cost vid (get_variant_cost vid s).2).1 = (get_variant_cost vid s).1
      ∧ (get_variant_cost vid (get_variant_cost vid s).2).2 = (get_variant_cost vid s).2)
  ∧ ((vid = none ∨ vid = some 0) →
      get_variant_cost vid s = ({ cost := none, found := false, variant_id := vid }, s))
  ∧ (∀ v, vid = some v → v ≠ 0 →
      dget (get_variant_cost vid s).2.cache v = some (get_variant_cost vid s).1.cost
      ∧ (get_variant_cost vid s).1.found = (get_variant_cost vid s).1.cost.isSome)
  ∧ (∀ v, vid = some v → v ≠ 0 → dget s.cache v = none →
      (get_variant_cost vid s).1.cost = s.api v
      ∧ ((get_variant_cost vid s).1.cost = none → v ∈ (get_variant_cost vid s).2.missing_costs))
  ∧ (∀ v c, vid = some v → v ≠ 0 → dget s.cache v = some c →
      get_variant_cost vid s = ({ cost := c, found := c.isSome, variant_id := some v }, s)) := by
  match vid with
  | none =>
    refine ⟨⟨by simp [gvc_eval_nil], by simp [gvc_eval_nil]⟩, fun _ => gvc_eval_nil s, ?_, ?_, ?_⟩
    · intro v hv
      cases hv
    · intro v hv
      cases hv
    · intro v c hv
      cases hv
  | some v =>
    by_cases hv : v = 0
    · subst hv
      refine ⟨⟨by simp [gvc_eval_zero], by simp [gvc_eval_zero]⟩, fun _ => gvc_eval_zero s,
        ?_, ?_, ?_⟩
      · intro w hw hw0
        obtain rfl : 0 = w := by injection hw
        exact absurd rfl hw0
      · intro w hw hw0
        obtain rfl : 0 = w := by injection hw
        exact absurd rfl hw0
      · intro w c hw hw0
        obtain rfl : 0 = w := by injection hw
        exact fun _ => absurd rfl hw0
    · rcases hc : dget s.cache v with _ | c
      · have h1 := gvc_eval_miss s v hv hc
        have h2 : dget ((v, s.api v) :: s.cache) v = some (s.api v) := by
          rw [dget_cons, if_pos rfl]
        have h3 := gvc_eval_hit
          { api := s.api, cache := (v, s.api v) :: s.cache,
            missing_costs := if s.api v = none then v :: s.missing_costs else s.missing_costs,
            fetches := s.fetches + 1 } v (s.api v) hv h2
        refine ⟨⟨by rw [h1]; rw [h3], by rw [h1]; rw [h3]⟩, ?_, ?_, ?_, ?_⟩
        · rintro (h | h)
          · cases h
          · injection h with h2
            exact absurd h2 hv
        · intro w hw hw0
          obtain rfl : v = w := by injection hw
          simp only [h1]
          exact ⟨h2, trivial⟩
        · intro w hw hw0 _
          obtain rfl : v = w := by injection hw
          simp only [h1]
          refine ⟨trivial, fun hnone => ?_⟩
          simp [hnone]
        · intro w c2 hw hw0 hcc
          obtain rfl : v = w := by injection hw
          rw [hcc] at hc
          cases hc
      · have h1 := gvc_eval_hit s v c hv hc
        refine ⟨⟨by rw [h1]; rw [h1], by rw [h1]; rw [h1]⟩, ?_, ?_, ?_, ?_⟩
        · rintro (h | h)
          · cases h
          · injection h with h2
            exact absurd h2 hv
        · intro w hw hw0
          obtain rfl : v = w := by injection hw
          simp only [h1]
          exact ⟨hc, trivial⟩
        · intro w hw hw0 hmiss
          obtain rfl : v = w := by injection hw
          rw [hmiss] at hc
          cases hc
        · intro w c2 hw hw0 hcc
          obtain rfl : v = w := by injection hw
          rw [hcc] at hc
          obtain rfl : c2 = c := by injection hc
          exact h1

/-- C7 fixture: empty cache; the API knows a cost only for variant 1. -/
def costStateW : CostState :=
  { api := fun v => if v = 1 then some 5 else none, cache := [], missing_costs := [], fetches := 0 }

/-- Witness for C7: on variant 1 the second call equals the first and
leaves the state untouched; variant 0 short-circuits; variant 2 (no API
cost) yields no cost and lands in `missing_costs`. -/
theorem spec_c7_witness :
    (get_variant_cost (some 1) (get_variant_cost (some 1) costStateW).2).1
      = (get_variant_cost (some 1) costStateW).1
  ∧ (get_variant_cost (some 1) (get_variant_cost (some 1) costStateW).2).2
      = (get_variant_cost (some 1) costStateW).2
  ∧ get_variant_cost (some 0) costStateW
      = ({ cost := none, found := false, variant_id := some 0 }, costStateW)
  ∧ (get_variant_cost (some 2) costStateW).1.cost = none
  ∧ 2 ∈ (get_variant_cost (some 2) costStateW).2.missing_costs := by
  have h1 := spec_c7_cost_cache costStateW (some 1)
  have h0 := spec_c7_cost_cache costStateW (some 0)
  have h2 := spec_c7_cost_cache costStateW (some 2)
  have h4 := h2.2.2.2.1 2 rfl (by decide) rfl
  have hapi : costStateW.api 2 = none := rfl
  refine ⟨h1.1.1, h1.1.2, h0.2.1 (Or.inr rfl), ?_, ?_⟩
  · rw [h4.1, hapi]
  · exact h4.2 (by rw [h4.1, hapi])

/-- `found` always equals `cost.isSome` in a `get_variant_cost` result. -/
theorem gvc_found (vid : Option Int) (s : CostState) :
    (get_variant_cost vid s).1.found = (get_variant_cost vid s).1.cost.isSome := by
  match vid with
  | none => rfl
  | some v =>
    by_cases hv : v = 0
    · subst hv
      simp [gvc_eval_zero]
    · rcases hc : dget s.cache v with _ | c
      · simp [gvc_eval_miss s v hv hc]
      · simp [gvc_eval_hit s v c hv hc]

/-- `found` always equals `cost.isSome` in a `get_line_item_cost` result. -/
theorem gli_found (it : LineItem) (s : CostState) :
    (get_line_item_cost it s).1.found = (get_line_item_cost it s).1.cost.isSome := by
  simp only [get_line_item_cost]
  exact gvc_found it.variant_id s

/-- A falsy variant id makes the line-item cost lookup return no cost and
leave the state untouched. -/
theorem gli_cost_falsy (it : LineItem) (s : CostState)
    (h : it.variant_id = none ∨ it.variant_id = some 0) :
    (get_line_item_cost it s).1.cost = none ∧ (get_line_item_cost it s).2 = s := by
  rcases h with h | h <;> simp [get_line_item_cost, h, gvc_eval_nil, gvc_eval_zero]

/-- When the lookup yields no cost, `calculate_line_cogs` returns
`(0.0, False, None)`. -/
theorem clc_eval_none (it : LineItem) (s : CostState)
    (h : (get_line_item_cost it s).1.cost = none) :
    (calculate_line_cogs it s).1 = (0, false, none) := by
  have hf : (get_line_item_cost it s).1.found = false := by
    rw [gli_found, h]
    rfl
  simp [calculate_line_cogs, hf, h]

/-- A `calculate_line_cogs` result that is not flagged `has_cost` is
exactly `(0.0, False, None)`. -/
theorem clc_not_has (it : LineItem) (s : CostState)
    (h : (calculate_line_cogs it s).1.2.1 = false) :
    (calculate_line_cogs it s).1 = (0, false, none) := by
  rcases hf : (get_line_item_cost it s).1.found <;>
    rcases hco : (get_line_item_cost it s).1.cost with _ | c <;>
      simp [calculate_line_cogs, hf, hco] at h ⊢

/-- The line-item loop is internally consistent: total COGS is the sum of
the per-line COGS, the missing count is the number of lines without cost
data, the missing-sku list names exactly those lines (sku, else
`variant:<id>`), and a line without cost data contributes 0 COGS and no
unit cost. -/
theorem processLines_spec : ∀ (items : List LineItem) (s : CostState) (ds : List ℚ),
    (processLines s items ds).total_cogs =
      ((processLines s items ds).items.map LineItemMetrics.line_cogs).sum
  ∧ (processLines s items ds).missing_count =
      ((processLines s items ds).items.filter (fun li => !li.has_cost)).length
  ∧ (processLines s items ds).missing_skus =
      ((processLines s items ds).items.filter (fun li => !li.has_cost)).map
        (fun li => missingName li.sku li.variant_id)
  ∧ ∀ li ∈ (processLines s items ds).items, li.has_cost = false →
      li.line_cogs = 0 ∧ li.unit_cost = none
  | [], s, ds => by simp [processLines]
  | it :: rest, s, ds => by
    obtain ⟨ih1, ih2, ih3, ih4⟩ := processLines_spec rest (calculate_line_cogs it s).2 ds.tail
    rcases hh : (calculate_line_cogs it s).1.2.1 with _ | _
    · have h0 := clc_not_has it s hh
      refine ⟨?_, ?_, ?_, ?_⟩
      · simp [processLines, hh, h0, ih1]
      · simp [processLines, hh, h0, ih2]
        omega
      · simp [processLines, hh, h0, ih3]
      · intro li hli hfalse
        simp only [processLines, hh, Bool.false_eq_true, if_false, List.mem_cons] at hli
        rcases hli with rfl | hli
        · simp [h0]
        · exact ih4 li hli hfalse
    · refine ⟨?_, ?_, ?_, ?_⟩
      · simp [processLines, hh, ih1]
      · simp [processLines, hh, ih2]
      · simp [processLines, hh, ih3]
      · intro li hli hfalse
        simp only [processLines, List.mem_cons] at hli
        rcases hli with rfl | hli
        · rw [hh] at hfalse
          cases hfalse
        · exact ih4 li hli hfalse

/-! ## C2 -/

/-- C2: for every order `process_order` accepts, contribution equals net
revenue minus COGS minus packaging, gross profit equals net revenue minus
COGS, and the margin percentages are the corresponding ratios times 100
when net revenue is positive and 0 otherwise. -/
theorem spec_c2_contribution_margin (o : Order) (s : CostState)
    (dm : Option (List (Key × LWInfo))) (m : OrderMetrics)
    (h : (process_order o s dm).1 = some m) :
    m.contribution = m.net_revenue - m.cogs - m.packaging_total
  ∧ m.gross_profit = m.net_revenue - m.cogs
  ∧ (0 < m.net_revenue →
      m.contribution_margin_pct = m.contribution / m.net_revenue * 100
      ∧ m.gross_margin_pct = (m.net_revenue - m.cogs) / m.net_revenue * 100)
  ∧ (m.net_revenue ≤ 0 → m.gross_margin_pct = 0 ∧ m.contribution_margin_pct = 0) := by
  unfold process_order at h
  rcases hr : resolveSentOut o dm with _ | t
  · rw [hr] at h
    exact absurd h (by simp)
  · rw [hr] at h
    dsimp only at h
    injection h with h2
    subst h2
    refine ⟨rfl, rfl, fun hpos => ?_, fun hneg => ?_⟩
    · constructor <;> simp only [if_pos hpos]
    · have hnot : ¬ (0 < (calculate_order_revenue o).2.2) := by
        dsimp only at hneg
        exact fun hlt => absurd (lt_of_lt_of_le hlt hneg) (lt_irrefl 0)
      constructor <;> simp only [if_neg hnot]

/-- C2/C9 fixture: an order with one costed line (variant 1), one line with
a falsy variant id and one line the API has no cost for, fulfilled at
timestamp 5. -/
def orderC2 : Order :=
  { id := some 9, name := "#9", created_at := none, processed_at := none,
    currency := "GBP", current_total_discounts := none, total_discounts := none,
    current_subtotal_price := some 20, subtotal_price := none, shipping_amount := none,
    line_items :=
      [{ sku := some "A", variant_id := some 1, title := "a", price := 10, quantity := 2,
         discount_allocations := [] },
       { sku := none, variant_id := none, title := "b", price := 3, quantity := 1,
         discount_allocations := [] },
       { sku := some "C", variant_id := some 2, title := "c", price := 4, quantity := 1,
         discount_allocations := [] }],
    fulfillments := [{ created_at := some 5 }] }

/-- Witness for C2 on `orderC2`. -/
theorem spec_c2_witness :
    ∃ m, (process_order orderC2 costStateW none).1 = some m
      ∧ m.contribution = m.net_revenue - m.cogs - m.packaging_total
      ∧ m.gross_profit = m.net_revenue - m.cogs := by
  have hs : (process_order orderC2 costStateW none).1.isSome := by decide
  obtain ⟨m, hm⟩ := Option.isSome_iff_exists.mp hs
  exact ⟨m, hm, (spec_c2_contribution_margin orderC2 costStateW none m hm).1,
    (spec_c2_contribution_margin orderC2 costStateW none m hm).2.1⟩

/-! ## C9 -/

/-- C9: a line item with a falsy variant id, or whose cost lookup yields no
cost, gets `(0.0, False, None)` from `calculate_line_cogs`; `process_order`
still produces metrics whenever a dispatch date resolves, such lines
contribute 0 to total COGS, are counted in `missing_cost_count`, and are
named (sku, else `variant:<id>`) in `missing_cost_skus` — a missing cost
never drops the order. -/
theorem spec_c9_missing_costs :
    (∀ (it : LineItem) (s : CostState),
      (it.variant_id = none ∨ it.variant_id = some 0
        ∨ (get_line_item_cost it s).1.cost = none) →
      (calculate_line_cogs it s).1 = (0, false, none))
  ∧ (∀ (o : Order) (s : CostState) (dm : Option (List (Key × LWInfo))),
      (resolveSentOut o dm).isSome → ((process_order o s dm).1).isSome)
  ∧ (∀ (o : Order) (s : CostState) (dm : Option (List (Key × LWInfo))) (m : OrderMetrics),
      (process_order o s dm).1 = some m →
      m.cogs = (m.line_items.map LineItemMetrics.line_cogs).sum
      ∧ m.missing_cost_count = (m.line_items.filter (fun li => !li.has_cost)).length
      ∧ m.missing_cost_skus = (m.line_items.filter (fun li => !li.has_cost)).map
          (fun li => missingName li.sku li.variant_id)
      ∧ ∀ li ∈ m.line_items, li.has_cost = false →
          li.line_cogs = 0 ∧ li.unit_cost = none) := by
  refine ⟨?_, ?_, ?_⟩
  · intro it s h
    rcases h with h | h | h
    · exact clc_eval_none it s (gli_cost_falsy it s (Or.inl h)).1
    · exact clc_eval_none it s (gli_cost_falsy it s (Or.inr h)).1
    · exact clc_eval_none it s h
  · intro o s dm h
    rcases hr : resolveSentOut o dm with _ | t
    · rw [hr] at h
      cases h
    · unfold process_order
      rw [hr]
      simp
  · intro o s dm m h
    unfold process_order at h
    rcases hr : resolveSentOut o dm with _ | t
    · rw [hr] at h
      exact absurd h (by simp)
    · rw [hr] at h
      dsimp only at h
      injection h with h2
      subst h2
      exact processLines_spec o.line_items s (calculate_line_item_discounts o o.line_items)

/-- Witness for C9 on `orderC2`: the falsy-variant line and the costless
line are flagged, named and contribute nothing, and the order is kept. -/
theorem spec_c9_witness :
    (calculate_line_cogs
        { sku := none, variant_id := none, title := "b", price := 3, quantity := 1,
          discount_allocations := [] } costStateW).1 = (0, false, none)
  ∧ ((process_order orderC2 costStateW none).1).isSome
  ∧ (∃ m, (process_order orderC2 costStateW none).1 = some m
      ∧ m.missing_cost_count = (m.line_items.filter (fun li => !li.has_cost)).length
      ∧ m.missing_cost_skus = (m.line_items.filter (fun li => !li.has_cost)).map
          (fun li => missingName li.sku li.variant_id)) := by
  refine ⟨spec_c9_missing_costs.1 _ costStateW (Or.inl rfl),
    spec_c9_missing_costs.2.1 orderC2 costStateW none (by decide), ?_⟩
  have hs : (process_order orderC2 costStateW none).1.isSome := by decide
  obtain ⟨m, hm⟩ := Option.isSome_iff_exists.mp hs
  have h := spec_c9_missing_costs.2.2 orderC2 costStateW none m hm
  exact ⟨m, hm, h.2.1, h.2.2.1⟩

/-- `min?` is `none` exactly on the empty list. -/
theorem minq_eq_none_iff (l : List DT) : l.min? = none ↔ l = [] := by
  cases l <;> simp [List.min?]

/-- `filterMap` over fulfillment dates is empty iff no fulfillment parses. -/
theorem fulfillment_dates_nil_iff (l : List Fulfillment) :
    l.filterMap Fulfillment.created_at = [] ↔ ∀ f ∈ l, f.created_at = none := by
  induction l with
  | nil => simp
  | cons f l ih =>
    rcases hf : f.created_at with _ | t <;> simp [List.filterMap_cons, hf, ih]

/-- Characterisation of the dispatch-date resolution: it fails exactly when
the first Linnworks lookup hit carries no `processed_date` (or nothing
matches) and no fulfillment has a parseable `created_at`. -/
theorem resolveSentOut_none_iff (o : Order) (dm : Option (List (Key × LWInfo))) :
    resolveSentOut o dm = none ↔
      ((lwLookup o dm).bind LWInfo.processed_date = none
        ∧ ∀ f ∈ o.fulfillments, f.created_at = none) := by
  unfold resolveSentOut
  rcases hb : (lwLookup o dm).bind LWInfo.processed_date with _ | t
  · rcases hf : o.fulfillments with _ | ⟨f, l⟩
    · simp [is_order_fulfilled, get_sent_out_at, hf]
    · rw [← hf]
      have hful : is_order_fulfilled o = true := by
        simp [is_order_fulfilled, hf]
      simp only [hful, if_pos]
      rw [get_sent_out_at, if_neg (by rw [hf]; exact fun h => List.noConfusion h)]
      rw [minq_eq_none_iff, fulfillment_dates_nil_iff]
      simp
  · simp

/-- C3 fixture: the dispatch map binds the order id to an entry without a
`processed_date` and `str(order id)` to an entry with one. -/
def lwInfoNoDate : LWInfo :=
  { processed_date := none, shipping_method := "", customer_name := "",
    total_charge := 0, num_items := 0 }

/-- C3 fixture: an entry that does carry a `processed_date`. -/
def lwInfoDated : LWInfo :=
  { processed_date := some 7, shipping_method := "", customer_name := "",
    total_charge := 0, num_items := 0 }

/-- C3 fixture dispatch dict. -/
def dmC3 : List (Key × LWInfo) := [(Sum.inl 1, lwInfoNoDate), (Sum.inr "1", lwInfoDated)]

/-- C3 fixture order: id 1, no fulfillments. -/
def orderC3 : Order :=
  { id := some 1, name := "", created_at := none, processed_at := none,
    currency := "GBP", current_total_discounts := none, total_discounts := none,
    current_subtotal_price := none, subtotal_price := none, shipping_amount := none,
    line_items := [], fulfillments := [] }

/-! ## C3 (corrected) -/

/-- C3 counterexample: a Linnworks entry with a `processed_date` matches the
claim's `str(order id)` lookup, so by the claim the order has dispatch
evidence and must not be dropped; yet `process_order` returns `None`,
because the earlier order-id lookup already hit an entry without a
`processed_date` and the chain stops at the first hit. -/
theorem spec_c3_counterexample :
    (process_order orderC3 costStateW (some dmC3)).1 = none
  ∧ dget dmC3 (Sum.inr (pyStrOptInt orderC3.id)) = some lwInfoDated
  ∧ lwInfoDated.processed_date = some 7
  ∧ orderC3.fulfillments = [] := by
  refine ⟨?_, by decide, by decide, by decide⟩
  unfold process_order
  rw [(resolveSentOut_none_iff orderC3 (some dmC3)).mpr (by decide)]

/-- C3 as amended: `process_order` returns `None` iff the *first* hit of the
lookup chain (order id, then `str(order id)`, then the order name with `'#'`
stripped and trimmed, then the raw order name) carries no `processed_date`
— later keys are not consulted once one hits — and no fulfillment has a
parseable `created_at`; when metrics are returned, `sent_out_at` is that
first hit's `processed_date` when present, otherwise the earliest parseable
fulfillment `created_at`. -/
theorem spec_c3_dispatch_resolution (o : Order) (s : CostState)
    (dm : Option (List (Key × LWInfo))) :
    ((process_order o s dm).1 = none ↔
      ((lwLookup o dm).bind LWInfo.processed_date = none
        ∧ ∀ f ∈ o.fulfillments, f.created_at = none))
  ∧ (∀ m t, (process_order o s dm).1 = some m →
      (lwLookup o dm).bind LWInfo.processed_date = some t → m.sent_out_at = t)
  ∧ (∀ m, (process_order o s dm).1 = some m →
      (lwLookup o dm).bind LWInfo.processed_date = none →
      (o.fulfillments.filterMap Fulfillment.created_at).min? = some m.sent_out_at) := by
  refine ⟨?_, ?_, ?_⟩
  · have hiff : (process_order o s dm).1 = none ↔ resolveSentOut o dm = none := by
      rcases hr : resolveSentOut o dm with _ | t <;> simp [process_order, hr]
    exact hiff.trans (resolveSentOut_none_iff o dm)
  · intro m t hm hb
    have hr : resolveSentOut o dm = some t := by
      unfold resolveSentOut
      rw [hb]
    unfold process_order at hm
    rw [hr] at hm
    dsimp only at hm
    injection hm with h2
    subst h2
    rfl
  · intro m hm hb
    rcases hr : resolveSentOut o dm with _ | t
    · unfold process_order at hm
      rw [hr] at hm
      exact absurd hm (by simp)
    · unfold process_order at hm
      rw [hr] at hm
      dsimp only at hm
      injection hm with h2
      subst h2
      dsimp only
      unfold resolveSentOut at hr
      rw [hb] at hr
      by_cases hful : is_order_fulfilled o
      · rw [if_pos hful] at hr
        unfold get_sent_out_at at hr
        by_cases hnil : o.fulfillments = []
        · rw [if_pos hnil] at hr
          cases hr
        · rw [if_neg hnil] at hr
          exact hr
      · rw [if_neg hful] at hr
        cases hr

/-- C3 fixture: an order whose only dispatch evidence is its fulfillments,
the earliest parseable one at timestamp 5. -/
def orderC3F : Order :=
  { id := some 2, name := "#2", created_at := none, processed_at := none,
    currency := "GBP", current_total_discounts := none, total_discounts := none,
    current_subtotal_price := none, subtotal_price := none, shipping_amount := none,
    line_items := [],
    fulfillments := [{ created_at := some 7 }, { created_at := none }, { created_at := some 5 }] }

/-- Witness for C3: with no Linnworks hit, `orderC3F` is kept and its
`sent_out_at` is the earliest parseable fulfillment timestamp; `orderC3`
(no evidence at the first hit, no fulfillments) is dropped. -/
theorem spec_c3_witness :
    (∃ m, (process_order orderC3F costStateW none).1 = some m
      ∧ [some 7, none, some 5].reduceOption.min? = some m.sent_out_at)
  ∧ (process_order orderC3 costStateW (some dmC3)).1 = none := by
  constructor
  · have hs : (process_order orderC3F costStateW none).1.isSome := by decide
    obtain ⟨m, hm⟩ := Option.isSome_iff_exists.mp hs
    have h := (spec_c3_dispatch_resolution orderC3F costStateW none).2.2 m hm (by decide)
    exact ⟨m, hm, h⟩
  · exact (spec_c3_dispatch_resolution orderC3 costStateW (some dmC3)).1.mpr (by decide)

/-- A step of `get_dispatch_info` binds each of the order's keys to that
order's info (all three inserts carry the same info dict). -/
theorem dget_lwStep_of_mem (d : List (Key × LWInfo)) (o : LWOrder) (k : Key)
    (href : o.ReferenceNum ≠ "") (hk : k ∈ lwKeys o) :
    dget (lwStep d o) k = some (lwInfoOf o) := by
  unfold lwStep
  rw [if_neg href]
  unfold lwKeys at hk
  rcases hpi : pyIntOfString (cleanRef o.ReferenceNum) with _ | n <;> rw [hpi] at hk <;>
    simp only [List.cons_append, List.nil_append, List.mem_cons, List.not_mem_nil,
      or_false] at hk <;> dsimp only [dinsert]
  · rcases hk with rfl | rfl
    · rw [dget_cons]
      split_ifs with h1
      · rfl
      · rw [dget_cons, if_pos rfl]
    · rw [dget_cons, if_pos rfl]
  · rcases hk with rfl | rfl | rfl
    · rw [dget_cons, if_neg (fun h => Sum.noConfusion h), dget_cons]
      split_ifs with h1
      · rfl
      · rw [dget_cons, if_pos rfl]
    · rw [dget_cons, if_neg (fun h => Sum.noConfusion h), dget_cons, if_pos rfl]
    · rw [dget_cons, if_pos rfl]

/-- A step of `get_dispatch_info` leaves every other key untouched. -/
theorem dget_lwStep_of_not_mem (d : List (Key × LWInfo)) (o : LWOrder) (k : Key)
    (h : o.ReferenceNum = "" ∨ k ∉ lwKeys o) :
    dget (lwStep d o) k = dget d k := by
  unfold lwStep
  rcases h with h | h
  · rw [if_pos h]
  · by_cases href : o.ReferenceNum = ""
    · rw [if_pos href]
    · rw [if_neg href]
      unfold lwKeys at h
      rcases hpi : pyIntOfString (cleanRef o.ReferenceNum) with _ | n <;> rw [hpi] at h <;>
        simp only [List.cons_append, List.nil_append, List.mem_cons, List.not_mem_nil,
          or_false, not_or] at h <;> dsimp only [dinsert]
      · rw [dget_cons, if_neg h.2, dget_cons, if_neg h.1]
      · rw [dget_cons, if_neg h.2.2, dget_cons, if_neg h.2.1, dget_cons, if_neg h.1]

/-- Folding further orders never unbinds a key. -/
theorem dget_foldl_isSome (l : List LWOrder) (k : Key) :
    ∀ d, (dget d k).isSome → (dget (List.foldl lwStep d l) k).isSome := by
  induction l with
  | nil => exact fun d h => h
  | cons o l ih =>
    intro d h
    rw [List.foldl_cons]
    refine ih (lwStep d o) ?_
    by_cases href : o.ReferenceNum = ""
    · rw [dget_lwStep_of_not_mem d o k (Or.inl href)]
      exact h
    · rcases Classical.em (k ∈ lwKeys o) with hk | hk
      · rw [dget_lwStep_of_mem d o k href hk]
        rfl
      · rw [dget_lwStep_of_not_mem d o k (Or.inr hk)]
        exact h

/-- Folding orders that never write a key leaves its binding unchanged. -/
theorem dget_foldl_of_not_mem (l : List LWOrder) (k : Key)
    (h : ∀ o2 ∈ l, o2.ReferenceNum = "" ∨ k ∉ lwKeys o2) :
    ∀ d, dget (List.foldl lwStep d l) k = dget d k := by
  induction l with
  | nil => exact fun d => rfl
  | cons o l ih =>
    intro d
    rw [List.foldl_cons, ih (fun o2 h2 => h o2 (List.mem_cons_of_mem o h2)),
      dget_lwStep_of_not_mem d o k (h o (List.mem_cons_self o l))]

/-- C5 fixtures: two Linnworks orders sharing the reference "7". -/
def lwDup1 : LWOrder :=
  { ReferenceNum := "7", dProcessedOn := some 1, PostalServiceName := "",
    cFullName := "A", fTotalCharge := 0, nItems := 0 }

/-- C5 fixture: the later order with the same reference. -/
def lwDup2 : LWOrder :=
  { ReferenceNum := "7", dProcessedOn := some 2, PostalServiceName := "",
    cFullName := "B", fTotalCharge := 0, nItems := 0 }

/-! ## C5 (corrected) -/

/-- C5 counterexample: `lwDup1` has a non-empty reference and a parseable
`dProcessedOn`, yet after `get_dispatch_info` the raw-reference key holds
`lwDup2`'s info, not `lwDup1`'s — a later order with an equal reference
overwrites the dict entries, so "stores that order's info" fails as a
universal statement. -/
theorem spec_c5_counterexample :
    lwDup1 ∈ [lwDup1, lwDup2]
  ∧ lwDup1.ReferenceNum ≠ ""
  ∧ lwDup1.dProcessedOn.isSome
  ∧ dget (get_dispatch_info [lwDup1, lwDup2]) (Sum.inr lwDup1.ReferenceNum)
      = some (lwInfoOf lwDup2)
  ∧ lwInfoOf lwDup2 ≠ lwInfoOf lwDup1 := by
  refine ⟨by decide, by decide, by decide, ?_, by decide⟩
  decide

/-- C5 as amended: for a Linnworks order with non-empty reference (and a
parseable `dProcessedOn`), `get_dispatch_info` leaves the raw-reference
key, the cleaned-reference key and (when the cleaned reference is numeric)
the integer key all bound; each holds exactly that order's info when no
later order in the list writes the same key (last writer wins); and for
every Shopify order whose numeric id equals the integer value of some such
reference, the `process_order` lookup chain finds dispatch info. -/
theorem spec_c5_dispatch_keys (orders : List LWOrder) (o : LWOrder)
    (hmem : o ∈ orders) (href : o.ReferenceNum ≠ "") (hdate : o.dProcessedOn.isSome) :
    (∀ k ∈ lwKeys o, (dget (get_dispatch_info orders) k).isSome)
  ∧ (∀ pre post, orders = pre ++ o :: post →
      (∀ o2 ∈ post, o2.ReferenceNum = "" ∨ ∀ k ∈ lwKeys o, k ∉ lwKeys o2) →
      ∀ k ∈ lwKeys o, dget (get_dispatch_info orders) k = some (lwInfoOf o))
  ∧ (∀ (shop : Order) (n : Int), shop.id = some n →
      pyIntOfString (cleanRef o.ReferenceNum) = some n →
      (lwLookup shop (some (get_dispatch_info orders))).isSome) := by
  have hbound : ∀ k ∈ lwKeys o, (dget (get_dispatch_info orders) k).isSome := by
    intro k hk
    obtain ⟨pre, post, rfl⟩ := List.append_of_mem hmem
    unfold get_dispatch_info
    rw [List.foldl_append, List.foldl_cons]
    refine dget_foldl_isSome post k _ ?_
    rw [dget_lwStep_of_mem _ o k href hk]
    rfl
  refine ⟨hbound, ?_, ?_⟩
  · intro pre post hsplit hdisj k hk
    subst hsplit
    unfold get_dispatch_info
    rw [List.foldl_append, List.foldl_cons]
    rw [dget_foldl_of_not_mem post k ?_ _]
    · exact dget_lwStep_of_mem _ o k href hk
    · intro o2 h2
      rcases hdisj o2 h2 with h | h
      · exact Or.inl h
      · exact Or.inr (h k hk)
  · intro shop n hsid hpi
    have hkey : Sum.inl n ∈ lwKeys o := by
      unfold lwKeys
      rw [hpi]
      simp
    obtain ⟨i, hi⟩ := Option.isSome_iff_exists.mp (hbound (Sum.inl n) hkey)
    have hne : get_dispatch_info orders ≠ [] := by
      intro hnil
      rw [hnil] at hi
      cases hi
    unfold lwLookup
    dsimp only
    rw [if_neg hne, hsid]
    dsimp only [Option.bind]
    rw [hi]
    rfl

/-- C5 fixture: a Linnworks order whose reference "#12" cleans to the
numeric "12". -/
def lwW : LWOrder :=
  { ReferenceNum := "#12", dProcessedOn := some 3, PostalServiceName := "DPD",
    cFullName := "W", fTotalCharge := 0, nItems := 1 }

/-- C5 fixture: the Shopify order with numeric id 12. -/
def shopW : Order :=
  { id := some 12, name := "#W", created_at := none, processed_at := none,
    currency := "GBP", current_total_discounts := none, total_discounts := none,
    current_subtotal_price := none, subtotal_price := none, shipping_amount := none,
    line_items := [], fulfillments := [] }

/-- Witness for C5: `lwW` is stored under "#12", "12" and 12, and the
`process_order` lookup for Shopify order id 12 finds it. -/
theorem spec_c5_witness :
    (dget (get_dispatch_info [lwW]) (Sum.inr "#12")).isSome
  ∧ dget (get_dispatch_info [lwW]) (Sum.inl 12) = some (lwInfoOf lwW)
  ∧ (lwLookup shopW (some (get_dispatch_info [lwW]))).isSome := by
  have h := spec_c5_dispatch_keys [lwW] lwW (by decide) (by decide) (by decide)
  have hkeys : lwKeys lwW = [Sum.inr "#12", Sum.inr "12", Sum.inl 12] := by decide
  refine ⟨h.1 (Sum.inr "#12") (by rw [hkeys]; simp), ?_,
    h.2.2 shopW 12 rfl (by decide)⟩
  exact h.2.1 [] [] rfl (fun o2 h2 => absurd h2 (by simp)) (Sum.inl 12) (by rw [hkeys]; simp)

/-- `daysInMonth` ignores the year outside February. -/
theorem daysInMonth_ne_two (y y2 m : Int) (hm : m ≠ 2) :
    daysInMonth y m = daysInMonth y2 m := by
  unfold daysInMonth
  rw [if_neg hm, if_neg hm]

/-- February's length per leap year. -/
theorem daysInMonth_two (y : Int) :
    daysInMonth y 2 = if isLeapYear y then 29 else 28 := by
  unfold daysInMonth
  rw [if_pos rfl]

/-! ## C6 -/

/-- C6: the like-for-like window runs from the 1st of the same calendar
month in the previous year through the same day-of-month in the previous
year, with February 29 mapped to February 28 when the previous year has no
February 29; the selected rows are exactly those in this closed interval. -/
theorem spec_c6_lfl_window (today : PyDate)
    (h : isValidDate today.year today.month today.day) :
    (lflWindow today).1 = ⟨today.year - 1, today.month, 1⟩
  ∧ (lflWindow today).2 =
      (if today.month = 2 ∧ today.day = 29 ∧ isLeapYear (today.year - 1) = false
       then ⟨today.year - 1, 2, 28⟩
       else ⟨today.year - 1, today.month, today.day⟩)
  ∧ (∀ rows d, d ∈ selectLFL today rows ↔
      (d ∈ rows ∧ dateLE (lflWindow today).1 d ∧ dateLE d (lflWindow today).2)) := by
  refine ⟨rfl, ?_, ?_⟩
  · obtain ⟨h1, h2, h3, h4⟩ := h
    unfold lflWindow
    dsimp only
    by_cases hv : isValidDate (today.year - 1) today.month today.day
    · rw [if_pos hv]
      have hnot : ¬ (today.month = 2 ∧ today.day = 29 ∧ isLeapYear (today.year - 1) = false) := by
        rintro ⟨hm, hd, hl⟩
        obtain ⟨_, _, _, hv4⟩ := hv
        rw [hm, hd, daysInMonth_two, hl] at hv4
        simp at hv4
      rw [if_neg hnot]
    · rw [if_neg hv]
      have hcond : today.month = 2 ∧ today.day = 29 ∧ isLeapYear (today.year - 1) = false := by
        by_cases hm : today.month = 2
        · rw [hm] at h4
          rw [daysInMonth_two] at h4
          cases hl : isLeapYear (today.year - 1)
          · refine ⟨hm, ?_, rfl⟩
            by_contra hd
            refine hv ⟨h1, h2, h3, ?_⟩
            rw [hm, daysInMonth_two, hl]
            cases hy : isLeapYear today.year <;> rw [hy] at h4 <;> simp at h4 ⊢ <;> omega
          · exfalso
            refine hv ⟨h1, h2, h3, ?_⟩
            rw [hm, daysInMonth_two, hl]
            cases hy : isLeapYear today.year <;> rw [hy] at h4 <;> simp at h4 ⊢ <;> omega
        · exfalso
          exact hv ⟨h1, h2, h3, by rw [daysInMonth_ne_two (today.year - 1) today.year _ hm]; exact h4⟩
      rw [if_pos hcond, hcond.1]
  · intro rows d
    simp [selectLFL, List.mem_filter, and_assoc]

/-- Witness for C6: Feb 29 2024 maps to Feb 28 2023; Oct 12 2025 keeps its
day in 2024, and a row on Oct 5 2024 is selected. -/
theorem spec_c6_witness :
    (lflWindow ⟨2024, 2, 29⟩).2 = ⟨2023, 2, 28⟩
  ∧ (lflWindow ⟨2025, 10, 12⟩).1 = ⟨2024, 10, 1⟩
  ∧ (lflWindow ⟨2025, 10, 12⟩).2 = ⟨2024, 10, 12⟩
  ∧ ((⟨2024, 10, 5⟩ : PyDate) ∈ selectLFL ⟨2025, 10, 12⟩ [⟨2024, 10, 5⟩, ⟨2023, 1, 1⟩]) := by
  have h1 := spec_c6_lfl_window ⟨2024, 2, 29⟩ (by decide)
  have h2 := spec_c6_lfl_window ⟨2025, 10, 12⟩ (by decide)
  refine ⟨?_, h2.1, ?_, ?_⟩
  · rw [h1.2.1]
    decide
  · rw [h2.2.1]
    decide
  · exact (h2.2.2 [⟨2024, 10, 5⟩, ⟨2023, 1, 1⟩] ⟨2024, 10, 5⟩).mpr
      ⟨by simp, by decide, by decide⟩
